import Mathlib

/-!
# Verification of `src/uploads/post_processing.py`

A shallow embedding of the post-processing utility: an S3 single-file
uploader (`upload_file`), a video build orchestrator (`build_videos`), and
the command dispatcher (`main`).

Modelling conventions:

* Filesystem paths are lists of path components (`Path`).  A trailing
  separator in a path string (as returned by `glob` for directory
  patterns) is modelled as a final empty component.
* The filesystem visible to the script is an abstract `FS`: the lists of
  existing directories and regular files.  `glob.glob` is embedded as a
  segment-pattern matcher (`patMatch`) run over those lists, with glob's
  hidden-name rule (wildcards never match a dot-prefixed component) and
  its indifference to entry kind: a pattern without a trailing separator
  matches directories as well as files.
* Side effects (logging, `os.makedirs`, opening a log file, `Popen`,
  waiting, the S3 transfer call) are recorded as a trace of events `Ev`.
* Fallible external calls are oracles: `popen : String → Except String Unit`
  for process launch, and `s3 : Path → String → String → S3Res` for the
  storage client, whose failure modes distinguish `botocore` `ClientError`
  (the class caught by `upload_file`) from any other raised exception
  (`botocore` transport errors such as connection failures, or
  `boto3.exceptions.S3UploadFailedError`, are not `ClientError` subclasses).
* A Python exception that escapes a function is an `Except.error` carrying
  a `PyExc`.
-/

set_option autoImplicit false

namespace PostProcessing

/-- A filesystem path, as a list of components (segments between `/`). -/
abbrev Path := List String

/-- `os.path.basename` of a component path. -/
def basename (p : Path) : String := p.getLastD ""

/-- Render a component path as a string (`/`-separated). -/
def joinPath (p : Path) : String := String.intercalate "/" p

/-! ## Python `str.split(sep, maxsplit)` -/

/-- Split a character list at the first occurrence of `sep`:
`some (l, r)` when the list is `l ++ sep :: r` with `sep` not in `l`,
`none` when `sep` does not occur. -/
def splitAtFirst (sep : Char) : List Char → Option (List Char × List Char)
  | [] => none
  | c :: cs =>
    if c = sep then some ([], cs)
    else
      match splitAtFirst sep cs with
      | none => none
      | some (l, r) => some (c :: l, r)

/-- Python `str.split(sep, maxsplit)` on a character list: split at the
first `maxsplit` occurrences of `sep`; the remainder is kept whole. -/
def pySplit (sep : Char) : Nat → List Char → List (List Char)
  | 0, s => [s]
  | m + 1, s =>
    match splitAtFirst sep s with
    | none => [s]
    | some (l, r) => l :: pySplit sep m r

/-- Camera-identifier derivation from a camera folder name:
`camera_folder_name.split('_', 2)[-1]` (post_processing.py line 55).
Total: Python `[-1]` cannot fail here since `split` always returns a
non-empty list. -/
def cameraId (name : String) : String :=
  String.mk ((pySplit '_' 2 name.data).getLastD [])

theorem splitAtFirst_of_not_mem {sep : Char} {s : List Char} (h : sep ∉ s) :
    splitAtFirst sep s = none := by
  induction s with
  | nil => rfl
  | cons c cs ih =>
    have hc : c ≠ sep := fun hcs => h (hcs ▸ List.mem_cons_self c cs)
    have hcs : sep ∉ cs := fun hm => h (List.mem_cons_of_mem c hm)
    simp [splitAtFirst, hc, ih hcs]

theorem splitAtFirst_append {sep : Char} {l : List Char} (r : List Char)
    (h : sep ∉ l) : splitAtFirst sep (l ++ sep :: r) = some (l, r) := by
  induction l with
  | nil => simp [splitAtFirst]
  | cons c cs ih =>
    have hc : c ≠ sep := fun hcs => h (hcs ▸ List.mem_cons_self c cs)
    have hcs : sep ∉ cs := fun hm => h (List.mem_cons_of_mem c hm)
    simp [splitAtFirst, hc, ih hcs]

theorem pySplit_no_sep {sep : Char} {s : List Char} (h : sep ∉ s) (m : Nat) :
    pySplit sep m s = [s] := by
  cases m with
  | zero => rfl
  | succ m => simp [pySplit, splitAtFirst_of_not_mem h]

/-- `cameraId` on a name with no underscore returns the whole name. -/
theorem cameraId_no_underscore {name : String} (h : '_' ∉ name.data) :
    cameraId name = name := by
  simp [cameraId, pySplit_no_sep h]

theorem data_append (a b : String) : (a ++ b).data = a.data ++ b.data := rfl

theorem mk_data (s : String) : String.mk s.data = s := rfl

/-- `cameraId` on a name with exactly one underscore returns the portion
after that underscore. -/
theorem cameraId_one_underscore {a b : String} (ha : '_' ∉ a.data)
    (hb : '_' ∉ b.data) : cameraId (a ++ "_" ++ b) = b := by
  have hdata : (a ++ "_" ++ b).data = a.data ++ '_' :: b.data := by
    show a.data ++ "_".data ++ b.data = _
    simp
  unfold cameraId
  rw [hdata]
  simp [pySplit, splitAtFirst_append _ ha, splitAtFirst_of_not_mem hb, mk_data]

/-- `cameraId` on a name with at least two underscores returns the
remainder after the second underscore. -/
theorem cameraId_two_underscores {a b : String} (c : String)
    (ha : '_' ∉ a.data) (hb : '_' ∉ b.data) :
    cameraId (a ++ "_" ++ b ++ "_" ++ c) = c := by
  have hdata : (a ++ "_" ++ b ++ "_" ++ c).data
      = a.data ++ '_' :: (b.data ++ '_' :: c.data) := by
    show a.data ++ "_".data ++ b.data ++ "_".data ++ c.data = _
    simp
  unfold cameraId
  rw [hdata]
  simp [pySplit, splitAtFirst_append _ ha, splitAtFirst_append _ hb, mk_data]

/-! ## Glob patterns

`glob.glob` is embedded as a matcher over the abstract filesystem: a
pattern is a list of segment patterns, one per path component. -/

/-- Whether `s` ends with `t`, on the underlying character lists (the
fnmatch tail test of a `*.{ext}` glob component). -/
def strEndsWith (s t : String) : Bool := t.data.isSuffixOf s.data

/-- One component of a glob pattern, covering the shapes the script
uses: a literal component, `*` (any one component), `*.{ext}` (one
component ending in `"." ++ ext`), and the recursive `**`. -/
inductive Seg
  | lit (s : String)
  | one
  | oneDot (ext : String)
  | deep
deriving DecidableEq

/-- Whether a component may be matched by a glob wildcard: Python's
glob/fnmatch wildcards never match a name starting with a dot (hidden
names); only a literal component can name those. -/
def notHidden (c : String) : Bool :=
  match c.data with
  | '.' :: _ => false
  | _ => true

/-- The suffixes of `cs` reachable by `**`: it may consume any number of
leading components, but never a hidden one. -/
def deepTails : List String → List (List String)
  | [] => [[]]
  | c :: cs => (c :: cs) :: (if notHidden c then deepTails cs else [])

/-- Whether a glob pattern matches a component path.  `deep` (`**` with
`recursive=True`) consumes any number of leading non-hidden components,
i.e. the rest of the pattern must match one of `deepTails`; the `one`
and `oneDot` wildcards likewise match only non-hidden components. -/
def patMatch : List Seg → List String → Bool
  | [], cs => cs.isEmpty
  | Seg.deep :: ps, cs => (deepTails cs).any fun q => patMatch ps q
  | Seg.lit _ :: _, [] => false
  | Seg.lit s :: ps, c :: cs => c = s && patMatch ps cs
  | Seg.one :: _, [] => false
  | Seg.one :: ps, c :: cs => notHidden c && patMatch ps cs
  | Seg.oneDot _ :: _, [] => false
  | Seg.oneDot e :: ps, c :: cs =>
    notHidden c && strEndsWith c ("." ++ e) && patMatch ps cs

/-- The filesystem visible to the script: the existing directories and
existing regular files, each as a component path with no trailing
separator. -/
structure FS where
  dirs : List Path
  files : List Path

/-- Literal pattern segments spelling out a root path. -/
def litSegs (p : Path) : List Seg := p.map Seg.lit

/-- `glob.glob("{source_directory}/*/rgb/")` (line 44): the trailing
separator restricts matches to directories and leaves a trailing
separator on each result string, modelled as a final empty component. -/
def globDirs (fs : FS) (sd : Path) : List Path :=
  (fs.dirs.filter fun d => patMatch (litSegs sd ++ [Seg.one, Seg.lit "rgb"]) d).map
    fun d => d ++ [""]

/-- `glob.glob("{source_directory}/**/*.{ext}", recursive=True)`
(line 112): the entries below the root whose name ends in `"." ++ ext`.
Without a trailing separator the pattern matches directories as well as
files, and the wildcards skip hidden names; the traversal order of the
entries is not specified, modelled here as files before directories. -/
def globRec (fs : FS) (sd : Path) (ext : String) : List Path :=
  (fs.files ++ fs.dirs).filter fun f =>
    patMatch (litSegs sd ++ [Seg.deep, Seg.oneDot ext]) f

theorem patMatch_litSegs_append (sd : Path) (ps : List Seg) (cs : List String) :
    patMatch (litSegs sd ++ ps) cs = true
      ↔ ∃ q, cs = sd ++ q ∧ patMatch ps q = true := by
  induction sd generalizing cs with
  | nil =>
    simp [litSegs]
  | cons s sd ih =>
    have hcons : litSegs (s :: sd) ++ ps = Seg.lit s :: (litSegs sd ++ ps) := by
      simp [litSegs]
    cases cs with
    | nil =>
      rw [hcons]
      simp [patMatch]
    | cons c cs =>
      rw [hcons]
      simp only [patMatch, Bool.and_eq_true, decide_eq_true_eq, ih]
      constructor
      · rintro ⟨rfl, q, rfl, hq⟩
        exact ⟨q, rfl, hq⟩
      · rintro ⟨q, hq, hm⟩
        rw [List.cons_append] at hq
        injection hq with h1 h2
        subst h1
        subst h2
        exact ⟨rfl, q, rfl, hm⟩

theorem patMatch_deep_oneDot (e : String) (q : List String) :
    patMatch [Seg.deep, Seg.oneDot e] q = true
      ↔ q ≠ [] ∧ (∀ c ∈ q, notHidden c = true)
        ∧ strEndsWith (basename q) ("." ++ e) = true := by
  induction q with
  | nil =>
    simp [patMatch, deepTails]
  | cons c cs ih =>
    have hstep : patMatch [Seg.deep, Seg.oneDot e] (c :: cs)
        = (patMatch [Seg.oneDot e] (c :: cs)
            || (notHidden c && patMatch [Seg.deep, Seg.oneDot e] cs)) := by
      by_cases hc : notHidden c = true <;>
        simp [patMatch, deepTails, hc]
    cases cs with
    | nil =>
      rw [hstep]
      simp [patMatch, basename, deepTails, and_assoc]
    | cons c' cs' =>
      rw [hstep, Bool.or_eq_true, Bool.and_eq_true, ih]
      have h1 : patMatch [Seg.oneDot e] (c :: c' :: cs') = false := by
        simp [patMatch]
      rw [h1]
      simp [basename, List.getLastD_cons, and_assoc]

theorem patMatch_one_rgb (q : List String) :
    patMatch [Seg.one, Seg.lit "rgb"] q = true
      ↔ ∃ x, notHidden x = true ∧ q = [x, "rgb"] := by
  match q with
  | [] => simp [patMatch]
  | [c] => simp [patMatch]
  | [c, c'] =>
    simp only [patMatch, Bool.and_eq_true, decide_eq_true_eq, List.isEmpty]
    constructor
    · rintro ⟨h1, h2, -⟩
      exact ⟨c, h1, by rw [h2]⟩
    · rintro ⟨x, hx, hq⟩
      injection hq with hqc hq2
      injection hq2 with hqc2 _
      subst hqc
      subst hqc2
      exact ⟨hx, rfl, trivial⟩
  | c :: c' :: c'' :: cs => simp [patMatch]

theorem basename_append {q : Path} (sd : Path) (h : q ≠ []) :
    basename (sd ++ q) = basename q := by
  induction sd with
  | nil => rfl
  | cons s sd ih =>
    cases hq : sd ++ q with
    | nil => exact absurd (List.append_eq_nil.mp hq).2 h
    | cons a l =>
      simp only [basename, List.cons_append, hq, List.getLastD_cons] at *
      cases l with
      | nil => simpa [basename, hq] using ih
      | cons b m => simpa [basename, hq] using ih

/-- Membership characterization of the recursive glob: exactly the
existing entries (files or directories) strictly below the root, reached
through non-hidden components only, whose name ends in `"." ++ ext`. -/
theorem mem_globRec (fs : FS) (sd : Path) (ext : String) (p : Path) :
    p ∈ globRec fs sd ext
      ↔ (p ∈ fs.files ∨ p ∈ fs.dirs)
        ∧ (∃ q, q ≠ [] ∧ p = sd ++ q ∧ ∀ c ∈ q, notHidden c = true)
        ∧ strEndsWith (basename p) ("." ++ ext) = true := by
  simp only [globRec, List.mem_filter, List.mem_append,
    patMatch_litSegs_append, patMatch_deep_oneDot]
  constructor
  · rintro ⟨hf, q, rfl, hq, hall, he⟩
    exact ⟨hf, ⟨q, hq, rfl, hall⟩, by rwa [basename_append sd hq]⟩
  · rintro ⟨hf, ⟨q, hq, rfl, hall⟩, he⟩
    exact ⟨hf, q, rfl, hq, hall, by rwa [basename_append sd hq] at he⟩

/-- Membership characterization of the directory glob. -/
theorem mem_globDirs (fs : FS) (sd : Path) (p : Path) :
    p ∈ globDirs fs sd
      ↔ ∃ x, notHidden x = true ∧ (sd ++ [x, "rgb"]) ∈ fs.dirs
          ∧ p = sd ++ [x, "rgb", ""] := by
  simp only [globDirs, List.mem_map, List.mem_filter,
    patMatch_litSegs_append, patMatch_one_rgb]
  constructor
  · rintro ⟨d, ⟨hd, q, rfl, x, hx, rfl⟩, rfl⟩
    exact ⟨x, hx, hd, by simp⟩
  · rintro ⟨x, hx, hd, rfl⟩
    exact ⟨sd ++ [x, "rgb"], ⟨hd, [x, "rgb"], rfl, x, hx, rfl⟩, by simp⟩

/-! ## Side-effect traces and external oracles -/

/-- One observable side effect of a run. -/
inductive Ev
  | logInfo (msg : String)
  | logError (msg : String)
  | mkLogDir (dir : Path)
  | openLog (file : Path)
  | launch (cmd : String)
  | waited (cmd : String)
  | s3call (file : Path) (bucket : String) (objectName : String)
deriving DecidableEq

/-- Events other than log lines: filesystem writes, process launches,
waits, and storage-transfer calls. -/
def isSideEffect : Ev → Bool
  | .logInfo _ => false
  | .logError _ => false
  | _ => true

/-- A Python exception escaping a function. -/
inductive PyExc
  | typeError (msg : String)
  | uncaught (msg : String)
deriving DecidableEq

/-- Outcome of one `boto3` `upload_file` call on the wire: success, a
`botocore.exceptions.ClientError` (the class named by the `except` clause
on line 30), or any other raised exception (`botocore` connection-level
transport errors and `boto3.exceptions.S3UploadFailedError` are not
`ClientError` subclasses). -/
inductive S3Res
  | ok
  | clientError (msg : String)
  | raised (msg : String)
deriving DecidableEq

/-- The storage-client oracle: the behavior of
`s3_client.upload_file(file_name, bucket, object_name)`. -/
abbrev S3 := Path → String → String → S3Res

/-- The process-launch oracle: the behavior of
`Popen(cmd, shell=True, ...)`; `Except.error` is a raised exception,
carrying its message. -/
abbrev PopenOracle := String → Except String Unit

/-! ## Object upload client -/

/-- The S3 object name actually used by `upload_file` (lines 22-24):
`if not object_name: object_name = os.path.basename(file_name)`
(Python falsiness: `None` or the empty string). -/
def effectiveKey (file_name : Path) : Option String → String
  | some o => if o = "" then basename file_name else o
  | none => basename file_name

/-- `upload_file(file_name, bucket, object_name)` (lines 13-33): resolve
the object name, call the storage client, return `True` on success; a
`ClientError` is logged and turned into `False`; any other raised
exception propagates to the caller. -/
def upload_file (s3 : S3) (file_name : Path) (bucket : String)
    (object_name : Option String) : Except PyExc (Bool × List Ev) :=
  let objName := effectiveKey file_name object_name
  match s3 file_name bucket objName with
  | .ok => .ok (true, [Ev.s3call file_name bucket objName])
  | .clientError m => .ok (false, [Ev.s3call file_name bucket objName, Ev.logError m])
  | .raised m => .error (.uncaught m)

/-! ## Video build orchestrator -/

/-- `os.path.basename(Path(folder).parent.absolute())` (lines 51-52):
`pathlib` normalization drops the trailing separator (the final empty
component), `.parent` drops the last component, and `.absolute()` does
not change the final component. -/
def camFolderName (folder : Path) : String :=
  basename ((folder.filter fun c => c ≠ "").dropLast)

/-- The derived camera identifier of a glob-result folder (line 55). -/
def camOf (folder : Path) : String := cameraId (camFolderName folder)

/-- The log directory `os.path.join(os.getcwd(), "video_creation_logs")`
(lines 47, 58-59). -/
def logDir (cwd : Path) : Path := cwd ++ ["video_creation_logs"]

/-- The per-camera log file path (line 58). -/
def logPathOf (cwd : Path) (folder : Path) : Path :=
  logDir cwd ++ [camOf folder ++ ".log"]

/-- The ffmpeg command line (lines 63-68). -/
def ffmpegCmd (folder : Path) : String :=
  "ffmpeg -nostdin -r 30 -f image2 -s 1920x1080 -start_number 0 -y -i "
    ++ joinPath folder ++ "/%d.jpeg -vcodec libx264 -crf 23 -pix_fmt yuv420p "
    ++ joinPath folder ++ "/" ++ camOf folder ++ ".mp4"

/-- The `for folder in rgb_folders` loop (lines 49-69): per folder, create
the log directory, open the log file, launch ffmpeg, and collect the
process handle (represented by its command line).  Returns the events
performed, the launched processes, and the exception message when a
launch raised. -/
def buildLoop (popen : PopenOracle) (cwd : Path) :
    List Path → List Ev × List String × Option String
  | [] => ([], [], none)
  | folder :: rest =>
    let pre := [Ev.mkLogDir (logDir cwd), Ev.openLog (logPathOf cwd folder)]
    match popen (ffmpegCmd folder) with
    | .error e => (pre, [], some e)
    | .ok _ =>
      let (evs, procs, err) := buildLoop popen cwd rest
      (pre ++ Ev.launch (ffmpegCmd folder) :: evs,
       ffmpegCmd folder :: procs, err)

def invalidDirMsg : String := "Invalid source_directory passed."

/-- The message of the `TypeError` raised by `os.path.isdir(None)`. -/
def isdirNoneMsg : String :=
  "stat: path should be string, bytes, os.PathLike or integer, not NoneType"

/-- The startup log line of a build run (line 47). -/
def creatingMsg (sd cwd : Path) : String :=
  "Creating videos from images in source_directory - " ++ joinPath sd
    ++ ". This might take a while based on the length of video to be generated. Logs for video creation are at "
    ++ joinPath (logDir cwd) ++ "."

/-- The handler message of the `except` clause (line 76). -/
def couldNotRunMsg (e : String) : String :=
  "Could not run ffmpeg command due to error - " ++ e
    ++ ". \n Note, this operation requires ffmpeg to be installed"

/-- `build_videos(source_directory)` (lines 36-78).  `os.path.isdir`
(line 42) is `False` on a path that is not an existing directory, and
raises `TypeError` when handed `None` (a missing `--source_directory`
option). -/
def build_videos (fs : FS) (popen : PopenOracle) (cwd : Path) :
    Option Path → Except PyExc (List Ev)
  | none => .error (.typeError isdirNoneMsg)
  | some sd =>
    if fs.dirs.contains sd then
      let rgb_folders := globDirs fs sd
      let (evs, procs, fail) := buildLoop popen cwd rgb_folders
      match fail with
      | none =>
        .ok (Ev.logInfo (creatingMsg sd cwd) :: evs
          ++ procs.map Ev.waited
          ++ [Ev.logInfo "Finished creating videos from images."])
      | some e =>
        .ok (Ev.logInfo (creatingMsg sd cwd) :: evs
          ++ [Ev.logError (couldNotRunMsg e)])
    else .ok [Ev.logError invalidDirMsg]

/-! ## Command dispatcher -/

/-- Python `str()` of an optional string as applied by
`"...{}".format(...)`: `None` formats as the literal `"None"`. -/
def pyStr : Option String → String
  | none => "None"
  | some s => s

/-- Python truthiness of an optional string. -/
def truthy : Option String → Bool
  | none => false
  | some s => s ≠ ""

def copyingMsg (f : Path) : String := "Copying file " ++ joinPath f

def totalFilesMsg (n : Nat) : String := "Total files to copy - " ++ toString n

/-- The `for file in files` upload loop of `main` (lines 114-120). -/
def uploadLoop (s3 : S3) (bucket : String)
    (destination_directory : Option String) :
    List Path → Except PyExc (List Ev)
  | [] => .ok []
  | f :: rest => do
    let file_name := basename f
    let destination_object : Option String :=
      if truthy destination_directory
      then some (destination_directory.getD "" ++ "/" ++ file_name)
      else none
    let (_, evs) ← upload_file s3 f bucket destination_object
    let more ← uploadLoop s3 bucket destination_directory rest
    return Ev.logInfo (copyingMsg f) :: evs ++ more

/-- The directory-upload branch of `main` (lines 110-122). -/
def dirUpload (fs : FS) (s3 : S3) (sd : Path) (format_to_copy : Option String)
    (destination_directory : Option String) (bucket : String) :
    Except PyExc (List Ev) :=
  if fs.dirs.contains sd then do
    let files := globRec fs sd (pyStr format_to_copy)
    let evs ← uploadLoop s3 bucket destination_directory files
    return Ev.logInfo (totalFilesMsg files.length) :: evs
  else .ok [Ev.logError invalidDirMsg]

/-- The single-file-upload branch of `main` (lines 124-129). -/
def fileUpload (fs : FS) (s3 : S3) (sf : Path)
    (destination_file : Option String) (bucket : String) :
    Except PyExc (List Ev) :=
  if fs.files.contains sf then do
    let (_, evs) ← upload_file s3 sf bucket destination_file
    return Ev.logInfo (copyingMsg sf) :: evs
  else .ok [Ev.logError "Invalid source_file passed."]

/-- The parsed command-line options (lines 81-91); every option defaults
to `None` (`False` for the `--build` flag). -/
structure Args where
  source_directory : Option Path
  build : Bool
  format_to_copy : Option String
  destination_directory : Option String
  source_file : Option Path
  destination_file : Option String
  bucket : Option String

/-- Python truthiness of an optional path (`None` and `""` are falsy). -/
def truthyPath : Option Path → Bool
  | none => false
  | some p => p ≠ []

/-- The upload phase of `main` (lines 107-129): runs only when a bucket
is given; the directory upload and the single-file upload are
independent. -/
def uploadPhase (fs : FS) (s3 : S3) (args : Args) : Except PyExc (List Ev) :=
  if truthy args.bucket then do
    let bucket := args.bucket.getD ""
    let dirEvs ←
      if truthyPath args.source_directory then
        dirUpload fs s3 (args.source_directory.getD []) args.format_to_copy
          args.destination_directory bucket
      else pure []
    let fileEvs ←
      if truthyPath args.source_file then
        fileUpload fs s3 (args.source_file.getD []) args.destination_file
          bucket
      else pure []
    return dirEvs ++ fileEvs
  else pure []

/-- `main()` (lines 93-129): the build phase, then the upload phase. -/
def main (fs : FS) (popen : PopenOracle) (s3 : S3) (cwd : Path)
    (args : Args) : Except PyExc (List Ev) := do
  let buildEvs ←
    if args.build then build_videos fs popen cwd args.source_directory
    else pure []
  let upEvs ← uploadPhase fs s3 args
  return buildEvs ++ upEvs

/-! ## Trace observations -/

/-- The commands of the `launch` events of a trace. -/
def launchEvs (evs : List Ev) : List String :=
  evs.filterMap fun e => match e with
    | .launch c => some c
    | _ => none

/-- The log files opened by a trace. -/
def openedLogs (evs : List Ev) : List Path :=
  evs.filterMap fun e => match e with
    | .openLog p => some p
    | _ => none

/-- The storage-transfer calls of a trace, with their object keys. -/
def s3calls (evs : List Ev) : List (Path × String × String) :=
  evs.filterMap fun e => match e with
    | .s3call f b k => some (f, b, k)
    | _ => none

/-! ## Shared helper lemmas -/

theorem s3calls_append (a b : List Ev) :
    s3calls (a ++ b) = s3calls a ++ s3calls b := by
  simp [s3calls, List.filterMap_append]

theorem launchEvs_append (a b : List Ev) :
    launchEvs (a ++ b) = launchEvs a ++ launchEvs b := by
  simp [launchEvs, List.filterMap_append]

theorem openedLogs_append (a b : List Ev) :
    openedLogs (a ++ b) = openedLogs a ++ openedLogs b := by
  simp [openedLogs, List.filterMap_append]

theorem slash_ne_empty (d b : String) : d ++ "/" ++ b ≠ "" := by
  intro h
  have hlen := congrArg String.length h
  simp [String.length_append] at hlen
  exact absurd hlen.1.2 (by decide)

theorem string_append_right_cancel {a b c : String} (h : a ++ c = b ++ c) :
    a = b := by
  have hd : a.data ++ c.data = b.data ++ c.data := by
    have := congrArg String.data h
    simpa [data_append] using this
  have : a.data = b.data := List.append_cancel_right hd
  calc a = String.mk a.data := rfl
    _ = String.mk b.data := by rw [this]
    _ = b := rfl

/-! ## Claim theorems -/

/-- C4: camera-identifier derivation discards the first two
underscore-delimited tokens: for any folder name with at least two
underscores (the parts before them underscore-free) the identifier is the
remainder after the second underscore; in particular
"World_Cameras_Camera_01" yields "Camera_01", also when derived from a
discovered frame directory of that camera. -/
theorem cameraId_drops_first_two_tokens :
    (∀ a b c : String, '_' ∉ a.data → '_' ∉ b.data
        → cameraId (a ++ "_" ++ b ++ "_" ++ c) = c)
    ∧ cameraId "World_Cameras_Camera_01" = "Camera_01"
    ∧ camOf ["sd", "World_Cameras_Camera_01", "rgb", ""] = "Camera_01" :=
  ⟨fun a b c ha hb => cameraId_two_underscores c ha hb, by decide, by decide⟩

/-- Witness for C4 at concrete token strings. -/
theorem cameraId_drops_first_two_tokens_witness :
    cameraId ("World" ++ "_" ++ "Cameras" ++ "_" ++ "Camera_01") = "Camera_01" :=
  cameraId_drops_first_two_tokens.1 "World" "Cameras" "Camera_01"
    (by decide) (by decide)

/-- C9: camera-identifier derivation is total (it is a Lean function, and
Python's `[-1]` indexing cannot fail since `split` returns a non-empty
list); on a name with no underscore it returns the whole name, and on a
name with exactly one underscore it returns the portion after it. -/
theorem cameraId_total_few_underscores (name : String) :
    ('_' ∉ name.data → cameraId name = name)
    ∧ ∀ a b : String, '_' ∉ a.data → '_' ∉ b.data
        → cameraId (a ++ "_" ++ b) = b :=
  ⟨fun h => cameraId_no_underscore h,
   fun _ _ ha hb => cameraId_one_underscore ha hb⟩

/-- Witness for C9: a name with no underscore and a name with one. -/
theorem cameraId_total_few_underscores_witness :
    cameraId "abc" = "abc" ∧ cameraId ("a" ++ "_" ++ "b") = "b" :=
  ⟨(cameraId_total_few_underscores "abc").1 (by decide),
   (cameraId_total_few_underscores "abc").2 "a" "b" (by decide) (by decide)⟩

/-- A tree with a matching file inside a hidden directory, and a
directory whose own name matches `*.png`. -/
def fsHidden : FS :=
  { dirs := [["up"], ["up", ".h"], ["up", "d.png"]],
    files := [["up", ".h", "x.png"], ["up", "a.txt"]] }

/-- C6 counterexample: the resolver does not produce the set of all
suffix-matching file paths under the root.  The file "up/.h/x.png" ends
in ".png" but is not returned (glob wildcards never match hidden names),
while "up/d.png" is returned although it is a directory, not a file. -/
theorem globRec_not_all_suffix_files :
    (["up", ".h", "x.png"] ∈ fsHidden.files
      ∧ strEndsWith (basename ["up", ".h", "x.png"]) ".png" = true
      ∧ ["up", ".h", "x.png"] ∉ globRec fsHidden ["up"] "png")
    ∧ ["up", "d.png"] ∈ globRec fsHidden ["up"] "png"
    ∧ ["up", "d.png"] ∉ fsHidden.files := by
  decide

/-- C6 (amended): the recursive glob used by the directory upload
returns exactly the existing entries — files or directories — strictly
below the root, reached through non-hidden components only, whose name
ends with the dotted extension suffix. -/
theorem globRec_resolves_suffix_files (fs : FS) (sd : Path) (ext : String)
    (p : Path) :
    p ∈ globRec fs sd ext
      ↔ (p ∈ fs.files ∨ p ∈ fs.dirs)
        ∧ (∃ q, q ≠ [] ∧ p = sd ++ q ∧ ∀ c ∈ q, notHidden c = true)
        ∧ strEndsWith (basename p) ("." ++ ext) = true :=
  mem_globRec fs sd ext p

/-- C1 counterexample: a storage-client failure that is not a
`botocore.exceptions.ClientError` — e.g. a connection-level transport
error, or `boto3.exceptions.S3UploadFailedError`, neither of which
subclasses `ClientError` — propagates out of `upload_file` instead of
being logged and turned into `False`. -/
theorem upload_file_raised_propagates :
    upload_file (fun _ _ _ => S3Res.raised "Connection was closed")
      ["f.png"] "bkt" none
      = Except.error (PyExc.uncaught "Connection was closed") := rfl

/-- C1 (amended): `upload_file` returns `True` exactly when the storage
client call completes without error; a `ClientError` is logged and turned
into `False` without propagating; and exactly the non-`ClientError`
exceptions propagate to the caller. -/
theorem upload_file_error_contract (s3 : S3) (f : Path) (bkt : String)
    (obj : Option String) :
    (∀ b evs, upload_file s3 f bkt obj = Except.ok (b, evs)
        → (b = true ↔ s3 f bkt (effectiveKey f obj) = S3Res.ok))
    ∧ (∀ m, s3 f bkt (effectiveKey f obj) = S3Res.clientError m
        → upload_file s3 f bkt obj
            = Except.ok (false, [Ev.s3call f bkt (effectiveKey f obj),
                Ev.logError m]))
    ∧ (∀ exc, upload_file s3 f bkt obj = Except.error exc
        → ∃ m, s3 f bkt (effectiveKey f obj) = S3Res.raised m
            ∧ exc = PyExc.uncaught m) := by
  rcases h : s3 f bkt (effectiveKey f obj) with _ | m | m <;>
    simp [upload_file, h]

/-- Witness for the amended C1 at a concrete `ClientError` outcome. -/
theorem upload_file_error_contract_witness :
    upload_file (fun _ _ _ => S3Res.clientError "AccessDenied")
      ["d", "f.png"] "bkt" none
      = Except.ok (false, [Ev.s3call ["d", "f.png"] "bkt" "f.png",
          Ev.logError "AccessDenied"]) :=
  (upload_file_error_contract (fun _ _ _ => S3Res.clientError "AccessDenied")
      ["d", "f.png"] "bkt" none).2.1 "AccessDenied" rfl

/-! ## Concrete fixtures for witnesses and counterexamples -/

/-- A filesystem with three `.png` files (at several depths), one `.txt`
file and one `.jpeg` file below `up`. -/
def fsUp : FS :=
  { dirs := [["up"], ["up", "sub"], ["up", "sub", "deep"]],
    files := [["up", "a.png"], ["up", "sub", "b.png"],
      ["up", "sub", "deep", "c.png"], ["up", "d.txt"],
      ["up", "sub", "e.jpeg"]] }

/-- A ground-truth tree with two camera folders whose names collide after
dropping the first two underscore tokens. -/
def fsCollide : FS :=
  { dirs := [["sd"], ["sd", "A_B_C", "rgb"], ["sd", "X_Y_C", "rgb"]],
    files := [] }

/-- A storage client that always succeeds. -/
def s3ok : S3 := fun _ _ _ => S3Res.ok

/-- A process launcher that always succeeds. -/
def popenOk : PopenOracle := fun _ => Except.ok ()

/-- Options: build requested, no other option given. -/
def argsBuildNoSd : Args :=
  { source_directory := none, build := true, format_to_copy := none,
    destination_directory := none, source_file := none,
    destination_file := none, bucket := none }

/-- Options: build requested on a non-existent directory. -/
def argsBuildBadSd : Args :=
  { source_directory := some ["nope"], build := true, format_to_copy := none,
    destination_directory := none, source_file := none,
    destination_file := none, bucket := none }

/-- C7: on a non-existent source directory, both the build operation and
the directory upload log "Invalid source_directory passed." and perform
no side effects: no log-directory creation, no log file, no launch, no
wait, and no storage call appear in either trace. -/
theorem invalid_sd_no_side_effects (fs : FS) (popen : PopenOracle) (s3 : S3)
    (cwd : Path) (p : Path) (fmt dd : Option String) (bkt : String)
    (hdir : fs.dirs.contains p = false) :
    build_videos fs popen cwd (some p) = Except.ok [Ev.logError invalidDirMsg]
    ∧ dirUpload fs s3 p fmt dd bkt = Except.ok [Ev.logError invalidDirMsg]
    ∧ ∀ evs, (build_videos fs popen cwd (some p) = Except.ok evs
        ∨ dirUpload fs s3 p fmt dd bkt = Except.ok evs)
        → ∀ e ∈ evs, isSideEffect e = false := by
  have hmem : ¬ p ∈ fs.dirs := by simpa using hdir
  have h1 : build_videos fs popen cwd (some p)
      = Except.ok [Ev.logError invalidDirMsg] := by
    simp [build_videos, hmem]
  have h2 : dirUpload fs s3 p fmt dd bkt
      = Except.ok [Ev.logError invalidDirMsg] := by
    simp [dirUpload, hmem]
  refine ⟨h1, h2, ?_⟩
  intro evs hevs e he
  have hsingle : evs = [Ev.logError invalidDirMsg] := by
    rcases hevs with hevs | hevs
    · rw [h1] at hevs
      injection hevs with h
      exact h.symm
    · rw [h2] at hevs
      injection hevs with h
      exact h.symm
  subst hsingle
  simp only [List.mem_singleton] at he
  subst he
  rfl

/-- Witness for C7 on a concrete missing directory. -/
theorem invalid_sd_no_side_effects_witness :
    build_videos fsUp popenOk ["cw"] (some ["nope"])
        = Except.ok [Ev.logError invalidDirMsg]
    ∧ dirUpload fsUp s3ok ["nope"] (some "png") none "bkt"
        = Except.ok [Ev.logError invalidDirMsg] := by
  have h := invalid_sd_no_side_effects fsUp popenOk s3ok ["cw"] ["nope"]
    (some "png") none "bkt" rfl
  exact ⟨h.1, h.2.1⟩

/-- C2 counterexample: the build flag is set and the source-directory
option is missing entirely; `os.path.isdir(None)` raises `TypeError`,
which nothing catches, so the run crashes instead of logging an error and
continuing. -/
theorem main_build_missing_sd_crashes :
    main { dirs := [], files := [] } popenOk s3ok ["cw"] argsBuildNoSd
      = Except.error (PyExc.typeError isdirNoneMsg) := rfl

/-- C2 (amended): when the build flag is set and the supplied source
directory names a non-existent directory, the run logs the error,
performs no other build action, and continues into the upload phase
without crashing.  (When the option is missing entirely, the run instead
crashes with a `TypeError` from `os.path.isdir(None)`.) -/
theorem main_build_invalid_sd_continues (fs : FS) (popen : PopenOracle)
    (s3 : S3) (cwd : Path) (args : Args) (p : Path)
    (hb : args.build = true) (hsd : args.source_directory = some p)
    (hdir : fs.dirs.contains p = false) :
    main fs popen s3 cwd args
      = (uploadPhase fs s3 args).map
          fun evs => Ev.logError invalidDirMsg :: evs := by
  have hmem : ¬ p ∈ fs.dirs := by simpa using hdir
  have hbv : build_videos fs popen cwd args.source_directory
      = Except.ok [Ev.logError invalidDirMsg] := by
    rw [hsd]
    simp [build_videos, hmem]
  unfold main
  rw [hb]
  simp only [if_true, hbv]
  cases h : uploadPhase fs s3 args <;>
    simp [h, Except.map, Except.bind, bind, pure, Except.pure]

/-- Witness for the amended C2 on a concrete non-existent directory. -/
theorem main_build_invalid_sd_continues_witness :
    main { dirs := [], files := [] } popenOk s3ok ["cw"] argsBuildBadSd
      = Except.ok [Ev.logError invalidDirMsg] :=
  (main_build_invalid_sd_continues { dirs := [], files := [] } popenOk s3ok
    ["cw"] argsBuildBadSd ["nope"] rfl rfl rfl).trans rfl

/-! ## Build-loop lemmas -/

/-- The events of one successfully launched build job. -/
def jobEvs (cwd : Path) (folder : Path) : List Ev :=
  [Ev.mkLogDir (logDir cwd), Ev.openLog (logPathOf cwd folder),
   Ev.launch (ffmpegCmd folder)]

theorem buildLoop_all_ok {popen : PopenOracle} (cwd : Path)
    {folders : List Path}
    (h : ∀ f ∈ folders, popen (ffmpegCmd f) = Except.ok ()) :
    buildLoop popen cwd folders
      = (folders.flatMap (jobEvs cwd), folders.map ffmpegCmd, none) := by
  induction folders with
  | nil => rfl
  | cons f rest ih =>
    have hf := h f (List.mem_cons_self f rest)
    have hrest := ih fun g hg => h g (List.mem_cons_of_mem f hg)
    simp [buildLoop, hf, hrest, jobEvs]

theorem buildLoop_first_fail {popen : PopenOracle} (cwd : Path)
    {pre : List Path} {bad : Path} (post : List Path) {e : String}
    (hok : ∀ f ∈ pre, popen (ffmpegCmd f) = Except.ok ())
    (hbad : popen (ffmpegCmd bad) = Except.error e) :
    buildLoop popen cwd (pre ++ bad :: post)
      = (pre.flatMap (jobEvs cwd)
          ++ [Ev.mkLogDir (logDir cwd), Ev.openLog (logPathOf cwd bad)],
         pre.map ffmpegCmd, some e) := by
  induction pre with
  | nil => simp [buildLoop, hbad]
  | cons f rest ih =>
    have hf := hok f (List.mem_cons_self f rest)
    have hrest := ih fun g hg => hok g (List.mem_cons_of_mem f hg)
    simp [buildLoop, hf, hrest, jobEvs]

theorem build_videos_ok_shape {fs : FS} {popen : PopenOracle} (cwd : Path)
    {sd : Path} (hmem : sd ∈ fs.dirs)
    (hok : ∀ f ∈ globDirs fs sd, popen (ffmpegCmd f) = Except.ok ()) :
    build_videos fs popen cwd (some sd)
      = Except.ok (Ev.logInfo (creatingMsg sd cwd)
          :: (globDirs fs sd).flatMap (jobEvs cwd)
          ++ ((globDirs fs sd).map ffmpegCmd).map Ev.waited
          ++ [Ev.logInfo "Finished creating videos from images."]) := by
  simp [build_videos, hmem, buildLoop_all_ok cwd hok]

theorem launchEvs_flatMap (cwd : Path) (folders : List Path) :
    launchEvs (folders.flatMap (jobEvs cwd)) = folders.map ffmpegCmd := by
  induction folders with
  | nil => rfl
  | cons f rest ih =>
    rw [List.flatMap_cons, launchEvs_append, ih]
    rfl

theorem openedLogs_flatMap (cwd : Path) (folders : List Path) :
    openedLogs (folders.flatMap (jobEvs cwd)) = folders.map (logPathOf cwd) := by
  induction folders with
  | nil => rfl
  | cons f rest ih =>
    rw [List.flatMap_cons, openedLogs_append, ih]
    rfl

theorem launchEvs_waited (procs : List String) :
    launchEvs (procs.map Ev.waited) = [] := by
  induction procs with
  | nil => rfl
  | cons c cs ih => exact ih

theorem openedLogs_waited (procs : List String) :
    openedLogs (procs.map Ev.waited) = [] := by
  induction procs with
  | nil => rfl
  | cons c cs ih => exact ih

theorem launchEvs_ok_trace (cwd : Path) (folders : List Path)
    (m1 m2 : String) (procs : List String) :
    launchEvs (Ev.logInfo m1 :: folders.flatMap (jobEvs cwd)
        ++ procs.map Ev.waited ++ [Ev.logInfo m2])
      = folders.map ffmpegCmd := by
  show launchEvs (folders.flatMap (jobEvs cwd)
      ++ procs.map Ev.waited ++ [Ev.logInfo m2]) = _
  rw [launchEvs_append, launchEvs_append, launchEvs_flatMap, launchEvs_waited]
  simp [launchEvs]

theorem openedLogs_ok_trace (cwd : Path) (folders : List Path)
    (m1 m2 : String) (procs : List String) :
    openedLogs (Ev.logInfo m1 :: folders.flatMap (jobEvs cwd)
        ++ procs.map Ev.waited ++ [Ev.logInfo m2])
      = folders.map (logPathOf cwd) := by
  show openedLogs (folders.flatMap (jobEvs cwd)
      ++ procs.map Ev.waited ++ [Ev.logInfo m2]) = _
  rw [openedLogs_append, openedLogs_append, openedLogs_flatMap, openedLogs_waited]
  simp [openedLogs]

theorem logPath_injective (cwd : Path) :
    Function.Injective fun c : String => logDir cwd ++ [c ++ ".log"] := by
  intro c1 c2 h
  have h1 : [c1 ++ ".log"] = [c2 ++ ".log"] := List.append_cancel_left h
  injection h1 with h2
  exact string_append_right_cancel h2

/-- C3 (amended): with every launch succeeding, a build run launches
exactly one encoder process per folder matching `*/rgb/` and opens one
log file per folder, all under `<cwd>/video_creation_logs`, and both the
launched commands and the opened log files are (as sets) invariant under
permutation of the directory discovery order — all of this
unconditionally; when additionally the derived camera identifiers are
pairwise distinct, the opened log files are exactly N distinct files for
N matched folders.  (Without distinctness the distinct-log-file count can
drop below N: see the counterexample.) -/
theorem build_videos_one_job_per_folder (fs : FS) (popen : PopenOracle)
    (cwd sd : Path)
    (hmem : sd ∈ fs.dirs)
    (hok : ∀ c, popen c = Except.ok ()) :
    ∃ evs, build_videos fs popen cwd (some sd) = Except.ok evs
      ∧ launchEvs evs = (globDirs fs sd).map ffmpegCmd
      ∧ (launchEvs evs).length = (globDirs fs sd).length
      ∧ openedLogs evs = (globDirs fs sd).map (logPathOf cwd)
      ∧ (openedLogs evs).length = (globDirs fs sd).length
      ∧ (((globDirs fs sd).map camOf).Nodup →
          (openedLogs evs).Nodup
            ∧ (openedLogs evs).dedup.length = (globDirs fs sd).length)
      ∧ ∀ fs' : FS, fs'.dirs.Perm fs.dirs →
          ∃ evs', build_videos fs' popen cwd (some sd) = Except.ok evs'
            ∧ (launchEvs evs').Perm (launchEvs evs)
            ∧ (openedLogs evs').Perm (openedLogs evs) := by
  have hshape := build_videos_ok_shape cwd hmem (fun f _ => hok _)
  have hl := launchEvs_ok_trace cwd (globDirs fs sd) (creatingMsg sd cwd)
    "Finished creating videos from images." ((globDirs fs sd).map ffmpegCmd)
  have ho := openedLogs_ok_trace cwd (globDirs fs sd) (creatingMsg sd cwd)
    "Finished creating videos from images." ((globDirs fs sd).map ffmpegCmd)
  have hmap : (globDirs fs sd).map (logPathOf cwd)
      = ((globDirs fs sd).map camOf).map fun c => logDir cwd ++ [c ++ ".log"] := by
    rw [List.map_map]
    rfl
  refine ⟨_, hshape, hl, ?_, ho, ?_, ?_, ?_⟩
  · rw [hl, List.length_map]
  · rw [ho, List.length_map]
  · intro hdistinct
    have hnodup : ((globDirs fs sd).map (logPathOf cwd)).Nodup := by
      rw [hmap]
      exact List.Nodup.map (logPath_injective cwd) hdistinct
    rw [ho]
    exact ⟨hnodup, by rw [List.Nodup.dedup hnodup, List.length_map]⟩
  · intro fs' hperm
    have hmem' : sd ∈ fs'.dirs := hperm.mem_iff.mpr hmem
    have hfolders : (globDirs fs' sd).Perm (globDirs fs sd) :=
      List.Perm.map _ (List.Perm.filter _ hperm)
    have hshape' := build_videos_ok_shape cwd hmem' (fun f _ => hok _)
    have hl' := launchEvs_ok_trace cwd (globDirs fs' sd) (creatingMsg sd cwd)
      "Finished creating videos from images." ((globDirs fs' sd).map ffmpegCmd)
    have ho' := openedLogs_ok_trace cwd (globDirs fs' sd) (creatingMsg sd cwd)
      "Finished creating videos from images." ((globDirs fs' sd).map ffmpegCmd)
    refine ⟨_, hshape', ?_, ?_⟩
    · rw [hl, hl']
      exact List.Perm.map _ hfolders
    · rw [ho, ho']
      exact List.Perm.map _ hfolders

/-- C3 counterexample: the tree "sd/A_B_C/rgb", "sd/X_Y_C/rgb" has N = 2
folders matching `*/rgb/`; the build launches 2 encoder processes but
creates only 1 distinct log file, because both folder names collide to
the camera identifier "C", hence to the same "C.log". -/
theorem build_videos_log_collision :
    (globDirs fsCollide ["sd"]).length = 2
    ∧ Except.map
        (fun evs => ((launchEvs evs).length, (openedLogs evs).dedup.length))
        (build_videos fsCollide popenOk ["cw"] (some ["sd"]))
      = Except.ok (2, 1) :=
  ⟨rfl, rfl⟩

/-- C8: when launching the encoder raises on a discovered folder, the
orchestrator catches the exception and returns normally; the handler logs
the message naming the external ffmpeg dependency; the folders after the
failing one get no launch (and nothing is waited on); and the launches
already performed remain exactly those of the earlier folders. -/
theorem build_videos_launch_failure (fs : FS) (popen : PopenOracle)
    (cwd sd : Path) (pre : List Path) (bad : Path) (post : List Path)
    (e : String)
    (hmem : sd ∈ fs.dirs)
    (hsplit : globDirs fs sd = pre ++ bad :: post)
    (hok : ∀ f ∈ pre, popen (ffmpegCmd f) = Except.ok ())
    (hbad : popen (ffmpegCmd bad) = Except.error e) :
    build_videos fs popen cwd (some sd)
      = Except.ok (Ev.logInfo (creatingMsg sd cwd)
          :: (pre.flatMap (jobEvs cwd)
            ++ [Ev.mkLogDir (logDir cwd), Ev.openLog (logPathOf cwd bad),
                Ev.logError (couldNotRunMsg e)]))
    ∧ launchEvs (pre.flatMap (jobEvs cwd)) = pre.map ffmpegCmd
    ∧ couldNotRunMsg e
        = "Could not run ffmpeg command due to error - " ++ e
          ++ ". \n Note, this operation requires ffmpeg to be installed" := by
  refine ⟨?_, launchEvs_flatMap cwd pre, rfl⟩
  simp [build_videos, hmem, hsplit, buildLoop_first_fail cwd post hok hbad]

/-- A ground-truth tree with two camera folders whose derived
identifiers are distinct. -/
def fsTwoCams : FS :=
  { dirs := [["sd"], ["sd", "A_B_C", "rgb"], ["sd", "X_Y_D", "rgb"]],
    files := [] }

/-- Witness for the amended C3 on a concrete two-camera tree (whose
derived identifiers happen to be distinct, so the conditional
distinct-log-file conjunct is exercised too). -/
theorem build_videos_one_job_per_folder_witness :
    ∃ evs, build_videos fsTwoCams popenOk ["cw"] (some ["sd"]) = Except.ok evs
      ∧ launchEvs evs = (globDirs fsTwoCams ["sd"]).map ffmpegCmd
      ∧ (launchEvs evs).length = (globDirs fsTwoCams ["sd"]).length
      ∧ openedLogs evs = (globDirs fsTwoCams ["sd"]).map (logPathOf ["cw"])
      ∧ (openedLogs evs).length = (globDirs fsTwoCams ["sd"]).length
      ∧ (((globDirs fsTwoCams ["sd"]).map camOf).Nodup →
          (openedLogs evs).Nodup
            ∧ (openedLogs evs).dedup.length = (globDirs fsTwoCams ["sd"]).length)
      ∧ ∀ fs' : FS, fs'.dirs.Perm fsTwoCams.dirs →
          ∃ evs', build_videos fs' popenOk ["cw"] (some ["sd"]) = Except.ok evs'
            ∧ (launchEvs evs').Perm (launchEvs evs)
            ∧ (openedLogs evs').Perm (openedLogs evs) :=
  build_videos_one_job_per_folder fsTwoCams popenOk ["cw"] ["sd"]
    (by decide) (fun _ => rfl)

/-- A launcher raising exactly on the second discovered camera folder's
command (the encoder binary is missing for it). -/
def popenFailX : PopenOracle := fun c =>
  if c = ffmpegCmd ["sd", "X_Y_C", "rgb", ""] then
    Except.error "No such file or directory: ffmpeg"
  else Except.ok ()

/-- Witness for C8: the first job is launched, the second launch raises,
the handler logs the ffmpeg note, and the run does not crash. -/
theorem build_videos_launch_failure_witness :
    build_videos fsCollide popenFailX ["cw"] (some ["sd"])
      = Except.ok (Ev.logInfo (creatingMsg ["sd"] ["cw"])
          :: ([["sd", "A_B_C", "rgb", ""]].flatMap (jobEvs ["cw"])
            ++ [Ev.mkLogDir (logDir ["cw"]),
                Ev.openLog (logPathOf ["cw"] ["sd", "X_Y_C", "rgb", ""]),
                Ev.logError (couldNotRunMsg "No such file or directory: ffmpeg")]))
    ∧ launchEvs ([["sd", "A_B_C", "rgb", ""]].flatMap (jobEvs ["cw"]))
        = [["sd", "A_B_C", "rgb", ""]].map ffmpegCmd
    ∧ couldNotRunMsg "No such file or directory: ffmpeg"
        = "Could not run ffmpeg command due to error - "
          ++ "No such file or directory: ffmpeg"
          ++ ". \n Note, this operation requires ffmpeg to be installed" :=
  build_videos_launch_failure fsCollide popenFailX ["cw"] ["sd"]
    [["sd", "A_B_C", "rgb", ""]] ["sd", "X_Y_C", "rgb", ""] []
    "No such file or directory: ffmpeg"
    (by decide) rfl
    (by
      intro f hf
      rw [List.mem_singleton] at hf
      subst hf
      rfl)
    rfl

/-! ## Upload-loop lemmas -/

/-- The object key the directory upload hands to the storage client for
one file: `<destination_directory>/<basename>` when a (non-empty)
destination directory is supplied, the file's base name otherwise. -/
def keyOf (destination_directory : Option String) (f : Path) : String :=
  if truthy destination_directory
  then destination_directory.getD "" ++ "/" ++ basename f
  else basename f

theorem effectiveKey_dirUpload (dd : Option String) (f : Path) :
    effectiveKey f
        (if truthy dd then some (dd.getD "" ++ "/" ++ basename f) else none)
      = keyOf dd f := by
  cases dd with
  | none => rfl
  | some d =>
    by_cases hd : d = ""
    · simp [truthy, hd, effectiveKey, keyOf]
    · simp [truthy, hd, effectiveKey, keyOf, slash_ne_empty]

theorem uploadLoop_calls {s3 : S3} (bkt : String) (dd : Option String)
    (hs3 : ∀ f b k m, s3 f b k ≠ S3Res.raised m) (files : List Path) :
    ∃ evs, uploadLoop s3 bkt dd files = Except.ok evs
      ∧ s3calls evs = files.map fun f => (f, bkt, keyOf dd f) := by
  induction files with
  | nil => exact ⟨[], rfl, rfl⟩
  | cons f rest ih =>
    obtain ⟨evs, hevs, hcalls⟩ := ih
    have hkey := effectiveKey_dirUpload dd f
    rcases h : s3 f bkt (keyOf dd f) with _ | m | m
    · refine ⟨Ev.logInfo (copyingMsg f)
        :: [Ev.s3call f bkt (keyOf dd f)] ++ evs, ?_, ?_⟩
      · simp [uploadLoop, upload_file, hkey, h, hevs, bind, Except.bind, pure, Except.pure]
      · show (f, bkt, keyOf dd f) :: s3calls evs = _
        rw [hcalls]
        rfl
    · refine ⟨Ev.logInfo (copyingMsg f)
        :: [Ev.s3call f bkt (keyOf dd f), Ev.logError m] ++ evs, ?_, ?_⟩
      · simp [uploadLoop, upload_file, hkey, h, hevs, bind, Except.bind, pure, Except.pure]
      · show (f, bkt, keyOf dd f) :: s3calls evs = _
        rw [hcalls]
        rfl
    · exact absurd h (hs3 f bkt (keyOf dd f) m)

/-- C5: the directory upload invokes the storage upload exactly once per
file matched by the glob, in discovery order; the object key is the
file's base name when no destination directory is supplied, and
`<destination_directory>/<basename>` when one is. -/
theorem dirUpload_one_call_per_match (fs : FS) (s3 : S3) (sd : Path)
    (fmt dd : Option String) (bkt : String)
    (hmem : sd ∈ fs.dirs)
    (hs3 : ∀ f b k m, s3 f b k ≠ S3Res.raised m) :
    ∃ evs, dirUpload fs s3 sd fmt dd bkt = Except.ok evs
      ∧ s3calls evs
          = (globRec fs sd (pyStr fmt)).map fun f => (f, bkt, keyOf dd f) := by
  obtain ⟨evs, hevs, hcalls⟩ :=
    uploadLoop_calls bkt dd hs3 (globRec fs sd (pyStr fmt))
  refine ⟨Ev.logInfo (totalFilesMsg (globRec fs sd (pyStr fmt)).length)
    :: evs, ?_, ?_⟩
  · simp [dirUpload, hmem, hevs, bind, Except.bind, pure, Except.pure]
  · exact hcalls

/-- Witness for C5: three `.png` files match (two other files do not),
giving exactly three upload calls with keys `dest/<basename>`. -/
theorem dirUpload_one_call_per_match_witness :
    ∃ evs, dirUpload fsUp s3ok ["up"] (some "png") (some "dest") "bkt"
        = Except.ok evs
      ∧ s3calls evs = [(["up", "a.png"], "bkt", "dest/a.png"),
          (["up", "sub", "b.png"], "bkt", "dest/b.png"),
          (["up", "sub", "deep", "c.png"], "bkt", "dest/c.png")] := by
  obtain ⟨evs, h1, h2⟩ := dirUpload_one_call_per_match fsUp s3ok ["up"]
    (some "png") (some "dest") "bkt" (by decide) (fun _ _ _ _ h => nomatch h)
  refine ⟨evs, h1, ?_⟩
  rw [h2]
  rfl

/-- C10: with the format option omitted, `"{}/**/*.{}".format(sd, None)`
produces the literal extension "None", so the directory upload selects
exactly the files whose name ends in ".None" — not all files under the
source directory. -/
theorem dirUpload_omitted_format (fs : FS) (s3 : S3) (sd : Path)
    (dd : Option String) (bkt : String)
    (hmem : sd ∈ fs.dirs)
    (hs3 : ∀ f b k m, s3 f b k ≠ S3Res.raised m) :
    pyStr none = "None"
    ∧ (∀ p ∈ globRec fs sd (pyStr none),
        strEndsWith (basename p) ".None" = true)
    ∧ ∃ evs, dirUpload fs s3 sd none dd bkt = Except.ok evs
        ∧ (s3calls evs).map (fun c => c.1) = globRec fs sd (pyStr none) := by
  refine ⟨rfl, ?_, ?_⟩
  · intro p hp
    exact ((mem_globRec fs sd "None" p).mp hp).2.2
  · obtain ⟨evs, hevs, hcalls⟩ :=
      uploadLoop_calls bkt dd hs3 (globRec fs sd (pyStr none))
    refine ⟨Ev.logInfo (totalFilesMsg (globRec fs sd (pyStr none)).length)
      :: evs, ?_, ?_⟩
    · simp [dirUpload, hmem, hevs, bind, Except.bind, pure, Except.pure]
    · show (s3calls evs).map (fun c => c.1) = _
      rw [hcalls, List.map_map]
      exact List.map_id _

/-- Witness for C10: no file of the concrete tree ends in ".None", so
zero files are selected and zero upload calls happen. -/
theorem dirUpload_omitted_format_witness :
    ∃ evs, dirUpload fsUp s3ok ["up"] none none "bkt" = Except.ok evs
      ∧ (s3calls evs).map (fun c => c.1) = ([] : List Path) := by
  obtain ⟨-, -, evs, h1, h2⟩ := dirUpload_omitted_format fsUp s3ok ["up"]
    none "bkt" (by decide) (fun _ _ _ _ h => nomatch h)
  exact ⟨evs, h1, h2.trans rfl⟩

end PostProcessing
